import Mathlib

/-!
Shallow embedding of the StudyCountDown backend (`src/server.js`, current
revision) and verification of its specification claims.

The database, HTTP framework, bcrypt and jsonwebtoken are external
collaborators with stated contracts; they are modelled by executable Lean
functions satisfying exactly those contracts (a salted hash with a working
`compare`, a token codec whose `verify` inverts `sign` and fails on any
other string).  Everything else — validation, control flow, response
bodies, store updates — is translated directly from `server.js`.
-/

/-- One study plan entry, embedded in a user document
(`UserSchema.studyPlans` item shape in `server.js`). -/
structure StudyPlan where
  subject : String
  hours : Int
  milestone : String
  completed : Bool
deriving DecidableEq, Repr

/-- A user document (`UserSchema` in `server.js`).  `name`, `avatar` and
`targetDate` are optional in the schema, so they are `Option`s here;
a Mongo `Date` is kept as an opaque string. -/
structure User where
  _id : Nat
  name : Option String
  email : String
  password : String
  avatar : Option String
  studyPlans : List StudyPlan
  targetDate : Option String
deriving DecidableEq, Repr

/-- The persistent store: the `users` collection plus the id the database
will hand to the next inserted document. -/
structure DB where
  users : List User
  nextId : Nat
deriving DecidableEq, Repr

/-- JSON values, for stating exactly what each response body contains. -/
inductive Json where
  | null : Json
  | str : String → Json
  | num : Int → Json
  | bool : Bool → Json
  | arr : List Json → Json
  | obj : List (String × Json) → Json

/-- Serialize an optional string field (absent → JSON null). -/
def Json.ostr : Option String → Json
  | none => .null
  | some s => .str s

/-- An HTTP response: status code and JSON body. -/
structure Response where
  status : Nat
  body : Json

/-- `res.status(s).json({ error: msg })`, the error-body shape used
throughout `server.js`. -/
def errBody (msg : String) : Json := .obj [("error", .str msg)]

mutual

/-- Whether a JSON value contains key `k` in any (nested) object. -/
def Json.hasKey (k : String) : Json → Bool
  | .obj fs => Json.hasKeyFields k fs
  | .arr xs => Json.hasKeyArr k xs
  | _ => false

/-- Helper for `Json.hasKey` over object field lists. -/
def Json.hasKeyFields (k : String) : List (String × Json) → Bool
  | [] => false
  | (k2, v) :: rest => k2 == k || Json.hasKey k v || Json.hasKeyFields k rest

/-- Helper for `Json.hasKey` over array elements. -/
def Json.hasKeyArr (k : String) : List Json → Bool
  | [] => false
  | v :: rest => Json.hasKey k v || Json.hasKeyArr k rest

end

/-- JavaScript string truthiness for the optional string inputs the
handlers destructure from `req.body`: `undefined` and `""` are falsy. -/
def truthy : Option String → Bool
  | none => false
  | some s => s != ""

/-- Model of `bcrypt.hash(p, 10)` (external primitive, spec §4.1):
an injective one-way tag of the plaintext. -/
def bcryptHash (p : String) : String := "$2a$10$" ++ p

/-- Model of `bcrypt.compare(p, h)` (external primitive, spec §4.1):
true exactly when `h` is the hash of `p`. -/
def bcryptCompare (p h : String) : Bool := h == bcryptHash p

/-- Model of `jwt.sign({ _id: uid }, secret)` (external primitive,
spec §4.2): a token string that embeds `uid` injectively. -/
def jwtSign (uid : Nat) : String :=
  String.mk ('j' :: 'w' :: 't' :: List.replicate uid '#')

/-- Model of `jwt.verify(t, secret)` (external primitive, spec §4.2):
recovers the embedded user id from a token produced by `jwtSign`, and
fails (returns `none`) on every other string. -/
def jwtVerify (t : String) : Option Nat :=
  match t.data with
  | 'j' :: 'w' :: 't' :: rest =>
      if rest.all (fun c => c == '#') then some rest.length else none
  | _ => none

/-- Remove the first occurrence of `pat` from a character list
(JavaScript `String.prototype.replace` with a string pattern and empty
replacement replaces only the first occurrence, wherever it is). -/
def replaceFirstList (pat : List Char) : List Char → List Char
  | [] => []
  | c :: cs =>
      if pat.isPrefixOf (c :: cs) then (c :: cs).drop pat.length
      else c :: replaceFirstList pat cs

/-- `s.replace(pat, "")` for JavaScript strings: removes the first
occurrence of `pat` in `s`, if any. -/
def replaceFirst (pat s : String) : String :=
  String.mk (replaceFirstList pat.data s.data)

/-- Whether `pat` occurs as a contiguous sublist. -/
def hasSubstr (pat : List Char) : List Char → Bool
  | [] => pat.isEmpty
  | c :: cs => pat.isPrefixOf (c :: cs) || hasSubstr pat cs

/-- `User.findOne({ email })`: first stored user with the given email. -/
def findOneByEmail (db : DB) (e : String) : Option User :=
  db.users.find? (fun u => u.email == e)

/-- `User.findById(id)`: first stored user with the given id. -/
def findById (db : DB) (id : Nat) : Option User :=
  db.users.find? (fun u => u._id == id)

/-- `doc.save()` on a previously loaded document: whole-document replace
of the stored record(s) with that id. -/
def save (db : DB) (u : User) : DB :=
  { db with users := db.users.map (fun v => if v._id == u._id then u else v) }

/-- Serialize one study plan. -/
def planJson (p : StudyPlan) : Json :=
  .obj [("subject", .str p.subject), ("hours", .num p.hours),
        ("milestone", .str p.milestone), ("completed", .bool p.completed)]

/-- Serialize a study-plan list. -/
def plansJson (ps : List StudyPlan) : Json := .arr (ps.map planJson)

/-- The full user document as `res.json(user)` serializes it — including
the stored password hash. -/
def userFullJson (u : User) : Json :=
  .obj [("_id", .num u._id), ("name", .ostr u.name), ("email", .str u.email),
        ("password", .str u.password), ("avatar", .ostr u.avatar),
        ("studyPlans", plansJson u.studyPlans),
        ("targetDate", .ostr u.targetDate)]

/-- `POST /api/register` (`server.js` lines 107–151).  Inputs are the
destructured `req.body` fields; returns the response and the store after
the request. -/
def register (db : DB) (name email password : Option String) :
    Response × DB :=
  match name, email, password with
  | some n, some e, some p =>
    if n == "" || e == "" || p == "" then
      (⟨400, errBody "All fields are required"⟩, db)
    else
      match findOneByEmail db e with
      | some _ => (⟨400, errBody "Email already in use"⟩, db)
      | none =>
        let user : User :=
          { _id := db.nextId, name := some n, email := e,
            password := bcryptHash p, avatar := none,
            studyPlans := [], targetDate := none }
        let db' : DB := { users := db.users ++ [user], nextId := db.nextId + 1 }
        (⟨201, .obj [("user", .obj [("_id", .num user._id),
                                    ("name", .str n), ("email", .str e)]),
                     ("token", .str (jwtSign user._id))]⟩, db')
  | _, _, _ => (⟨400, errBody "All fields are required"⟩, db)

/-- `POST /api/login` (`server.js` lines 153–192).  Does not change the
store, so only the response is returned. -/
def login (db : DB) (email password : Option String) : Response :=
  match email, password with
  | some e, some p =>
    if e == "" || p == "" then
      ⟨400, errBody "Email and password are required"⟩
    else
      match findOneByEmail db e with
      | none => ⟨401, errBody "Invalid credentials"⟩
      | some user =>
        if bcryptCompare p user.password then
          ⟨200, .obj [("user", .obj [("_id", .num user._id),
                                     ("name", .ostr user.name),
                                     ("email", .str user.email),
                                     ("avatar", .ostr user.avatar)]),
                      ("token", .str (jwtSign user._id))]⟩
        else ⟨401, errBody "Invalid credentials"⟩
  | _, _ => ⟨400, errBody "Email and password are required"⟩

/-- Outcome of the auth middleware: reject with a response, or attach the
resolved user and let the handler run. -/
inductive AuthResult where
  | denied : Nat → Json → AuthResult
  | allowed : User → AuthResult

/-- The `authenticate` middleware (`server.js` lines 86–104).
`header` is the raw `Authorization` header, absent or present. -/
def authenticate (db : DB) (header : Option String) : AuthResult :=
  match header with
  | none => .denied 401 (errBody "Access denied. No token provided.")
  | some h =>
    let token := replaceFirst "Bearer " h
    if token = "" then .denied 401 (errBody "Access denied. No token provided.")
    else
      match jwtVerify token with
      | none => .denied 401 (errBody "Invalid token")
      | some uid =>
        match findById db uid with
        | none => .denied 401 (errBody "User not found")
        | some user => .allowed user

/-- The token the Auth Gate ends up checking, `none` when the request is
rejected for having no token (absent header, or a falsy extracted token). -/
def authTokenOf (header : Option String) : Option String :=
  match header with
  | none => none
  | some h =>
    let t := replaceFirst "Bearer " h
    if t = "" then none else some t

/-- `req.body` of `PUT /api/user/settings`. -/
structure SettingsBody where
  name : Option String
  avatar : Option String
  emailNotifications : Option Bool
  mobileNotifications : Option Bool

/-- `if (x) target = x`: overwrite only with a truthy value. -/
def applyIfTruthy (cur inp : Option String) : Option String :=
  if truthy inp then inp else cur

/-- The user document after the settings handler's field updates. -/
def settingsApply (u : User) (body : SettingsBody) : User :=
  { u with name := applyIfTruthy u.name body.name,
           avatar := applyIfTruthy u.avatar body.avatar }

/-- `PUT /api/user/settings` (`server.js` lines 195–218).  `u` is the
authenticated user attached by the middleware. -/
def updateSettings (db : DB) (u : User) (body : SettingsBody) :
    Response × DB :=
  let u' := settingsApply u body
  (⟨200, .obj [("message", .str "Settings updated successfully"),
               ("user", .obj [("_id", .num u'._id), ("name", .ostr u'.name),
                              ("email", .str u'.email),
                              ("avatar", .ostr u'.avatar)])]⟩,
   save db u')

/-- `GET /api/user` (`server.js` lines 220–234). -/
def getUser (u : User) : Response :=
  ⟨200, .obj [("_id", .num u._id), ("name", .ostr u.name),
              ("email", .str u.email), ("avatar", .ostr u.avatar),
              ("studyPlans", plansJson u.studyPlans),
              ("targetDate", .ostr u.targetDate)]⟩

/-- `POST /api/plans` (`server.js` lines 236–245): append one plan to the
authenticated user's list and save. -/
def createPlan (db : DB) (u : User) (plan : StudyPlan) : Response × DB :=
  let u' := { u with studyPlans := u.studyPlans ++ [plan] }
  (⟨201, plansJson u'.studyPlans⟩, save db u')

/-- `GET /api/users/:userId` (`server.js` lines 247–255): returns the raw
user document. -/
def getUserById (db : DB) (userId : Nat) : Response :=
  match findById db userId with
  | none => ⟨404, errBody "User not found"⟩
  | some u => ⟨200, userFullJson u⟩

/-- `GET /api/health` (`server.js` lines 258–265). -/
def health (dbState : Nat) (timestamp environment : String) : Response :=
  ⟨200, .obj [("status", .str "OK"), ("dbState", .num dbState),
              ("timestamp", .str timestamp),
              ("environment", .str environment)]⟩

/-- `PUT /api/target-date` (`server.js` lines 268–278). -/
def updateTargetDate (db : DB) (u : User) (targetDate : Option String) :
    Response × DB :=
  let u' := { u with targetDate := targetDate }
  (⟨200, .obj [("message", .str "Target date updated successfully"),
               ("targetDate", .ostr targetDate)]⟩,
   save db u')

/-- `PUT /api/plans` (`server.js` lines 281–293): whole-list replace. -/
def replacePlans (db : DB) (u : User) (plans : List StudyPlan) :
    Response × DB :=
  let u' := { u with studyPlans := plans }
  (⟨200, .obj [("message", .str "Study plans updated successfully"),
               ("plans", plansJson u'.studyPlans)]⟩,
   save db u')

/-- Emails of distinct stored users are distinct (spec §3 invariant). -/
def emailUnique (db : DB) : Prop :=
  db.users.Pairwise (fun u v => u.email ≠ v.email)

/-- Ids of distinct stored users are distinct (the store generates them). -/
def idUnique (db : DB) : Prop :=
  db.users.Pairwise (fun u v => u._id ≠ v._id)

/-- Every stored id is below the store's next fresh id. -/
def idFresh (db : DB) : Prop :=
  ∀ u ∈ db.users, u._id < db.nextId

/-- The Connection Supervisor's states (spec §4.6).  `terminated` is the
give-up state of the abandoned bounded-retry policy; the current code
(`connectWithRetry`, `server.js` lines 42–61) should never enter it. -/
inductive SupState where
  | connecting : SupState
  | connected : SupState
  | retryScheduled : Nat → SupState
  | terminated : SupState
deriving DecidableEq, Repr

/-- One step of `connectWithRetry`: an attempt in `connecting` either
succeeds or schedules one retry 5000 ms out; a scheduled timer fires back
into `connecting`; `connected` is absorbing. -/
def connectStep (s : SupState) (attemptSucceeds : Bool) : SupState :=
  match s, attemptSucceeds with
  | .connecting, true => .connected
  | .connecting, false => .retryScheduled 5000
  | .retryScheduled _, _ => .connecting
  | .connected, _ => .connected
  | .terminated, _ => .terminated

/-! ### Lemmas about the modelled external primitives -/

/-- Every character of `replicate n c` is `c`. -/
lemma all_replicate_hash (n : Nat) :
    (List.replicate n '#').all (fun c => c == '#') = true := by
  simp [List.all_eq_true, List.mem_replicate]

/-- The token codec's `verify` inverts `sign` (spec §4.2 contract). -/
lemma jwtVerify_jwtSign (uid : Nat) : jwtVerify (jwtSign uid) = some uid := by
  simp [jwtVerify, jwtSign, all_replicate_hash]

/-- A signed token is never the empty string, hence never falsy. -/
lemma jwtSign_ne_empty (uid : Nat) : jwtSign uid ≠ "" := by
  intro h
  have h2 := congrArg String.data h
  simp [jwtSign] at h2

/-- `verify(p, hash(p))` holds (spec §4.1 contract). -/
lemma bcryptCompare_hash (p : String) : bcryptCompare p (bcryptHash p) = true := by
  simp [bcryptCompare]

/-! ### Lemmas about first-occurrence replacement -/

/-- Removing the first occurrence of a nonempty pattern from a string that
starts with that very pattern yields the remainder. -/
lemma replaceFirstList_self_append (pat l : List Char) (h : pat ≠ []) :
    replaceFirstList pat (pat ++ l) = l := by
  match pat, h with
  | c :: cs, _ =>
    have hp : (c :: cs).isPrefixOf (c :: (cs ++ l)) = true := by
      rw [List.isPrefixOf_iff_prefix]
      exact List.prefix_append (c :: cs) l
    show replaceFirstList (c :: cs) (c :: (cs ++ l)) = l
    rw [replaceFirstList, hp]
    simp [List.drop_left]

/-- String version for the `Bearer ` pattern. -/
lemma replaceFirst_bearer (t : String) :
    replaceFirst "Bearer " ("Bearer " ++ t) = t := by
  unfold replaceFirst
  rw [String.data_append, replaceFirstList_self_append _ _ (by decide)]

/-- A list that does not contain the pattern at all is left unchanged. -/
lemma replaceFirstList_of_no_occurrence (pat : List Char) :
    ∀ l, hasSubstr pat l = false → replaceFirstList pat l = l := by
  intro l
  induction l with
  | nil => intro _; rfl
  | cons c cs ih =>
    intro h
    rw [hasSubstr] at h
    rcases Bool.or_eq_false_iff.mp h with ⟨h1, h2⟩
    rw [replaceFirstList, h1, if_neg (by simp), ih h2]

/-! ### Lemmas about the store operations -/

/-- After `save db u'`, looking up `u'`'s id finds exactly `u'`, provided
that id was present before. -/
lemma find?_save_eq (users : List User) (u u' : User)
    (hu : users.find? (fun v => v._id == u'._id) = some u) :
    (users.map (fun v => if v._id == u'._id then u' else v)).find?
      (fun v => v._id == u'._id) = some u' := by
  induction users with
  | nil => simp at hu
  | cons w ws ih =>
    by_cases hw : (w._id == u'._id) = true
    · simp only [List.map_cons, if_pos hw]
      exact @List.find?_cons_of_pos _ (fun v => v._id == u'._id) u' _ (by simp)
    · rw [@List.find?_cons_of_neg _ (fun v => v._id == u'._id) w ws hw] at hu
      simp only [List.map_cons, if_neg hw]
      rw [@List.find?_cons_of_neg _ (fun v => v._id == u'._id) w
            (ws.map (fun v => if v._id == u'._id then u' else v)) hw]
      exact ih hu

/-- `findById` after `save` resolves to the saved document. -/
lemma findById_save (db : DB) (u u' : User)
    (hu : findById db u'._id = some u) :
    findById (save db u') u'._id = some u' := by
  unfold findById save at *
  exact find?_save_eq db.users u u' hu

/-- `save` is idempotent: saving the same document twice equals once. -/
lemma save_save (db : DB) (u : User) : save (save db u) u = save db u := by
  unfold save
  simp only [DB.mk.injEq, and_true, List.map_map]
  apply List.map_congr_left
  intro v _
  by_cases hv : v._id = u._id <;> simp [hv]

/-- Saving a document whose email agrees with the stored record at that id
leaves the store's email column unchanged (needs id uniqueness). -/
lemma save_map_email (users : List User) (u u' : User)
    (hpw : users.Pairwise (fun a b => a._id ≠ b._id))
    (hu : users.find? (fun v => v._id == u'._id) = some u)
    (he : u.email = u'.email) :
    (users.map (fun v => if v._id == u'._id then u' else v)).map User.email
      = users.map User.email := by
  induction users with
  | nil => simp
  | cons w ws ih =>
    rcases List.pairwise_cons.mp hpw with ⟨hw, hws⟩
    by_cases hid : (w._id == u'._id) = true
    · have hwu : w = u := by
        rw [@List.find?_cons_of_pos _ (fun v => v._id == u'._id) w ws hid] at hu
        exact Option.some.inj hu
      have htail : ws.map (fun v => if v._id == u'._id then u' else v) = ws := by
        have hv : ∀ v ∈ ws, (if v._id == u'._id then u' else v) = id v := by
          intro v hv
          have hne : w._id ≠ v._id := hw v hv
          have hvf : (v._id == u'._id) = false := by
            apply beq_eq_false_iff_ne.mpr
            intro hcontra
            exact hne (by rw [beq_iff_eq.mp hid, hcontra])
          rw [hvf]
          rfl
        rw [List.map_congr_left hv, List.map_id]
      simp only [List.map_cons, if_pos hid, htail]
      simp [← he, hwu]
    · rw [@List.find?_cons_of_neg _ (fun v => v._id == u'._id) w ws hid] at hu
      simp only [List.map_cons, if_neg hid]
      rw [ih hws hu]

/-! ### Lemmas about response serialization -/

/-- Serializing an optional string never introduces an object key. -/
lemma hasKey_ostr (k : String) (o : Option String) :
    Json.hasKey k (Json.ostr o) = false := by
  cases o <;> rfl

/-- An error body never contains a `password` key. -/
lemma hasKey_password_errBody (msg : String) :
    Json.hasKey "password" (errBody msg) = false := rfl

/-- A serialized plan array never contains a `password` key. -/
lemma hasKeyArr_password_plans (ps : List StudyPlan) :
    Json.hasKeyArr "password" (ps.map planJson) = false := by
  induction ps with
  | nil => rfl
  | cons p rest ih =>
    simp only [List.map_cons, Json.hasKeyArr]
    rw [ih]
    rfl

/-- A serialized plan list never contains a `password` key. -/
lemma hasKey_password_plansJson (ps : List StudyPlan) :
    Json.hasKey "password" (plansJson ps) = false :=
  hasKeyArr_password_plans ps

/-- Email uniqueness survives a `save` of a document whose email matches
the stored record at its id. -/
lemma emailUnique_save (db : DB) (u u' : User)
    (hidu : idUnique db) (hfind : findById db u'._id = some u)
    (he : u.email = u'.email) (hU : emailUnique db) :
    emailUnique (save db u') := by
  have hmap := save_map_email db.users u u' hidu hfind he
  unfold emailUnique at hU ⊢
  unfold save
  have h1 : (db.users.map User.email).Pairwise Ne := List.pairwise_map.mpr hU
  have h2 : ((db.users.map (fun v => if v._id == u'._id then u' else v)).map
      User.email).Pairwise Ne := by rw [hmap]; exact h1
  exact List.pairwise_map.mp h2

/-! ### Lemma for the Connection Supervisor -/

/-- The supervisor's step relation never enters the give-up state from a
live state. -/
lemma foldl_connectStep_ne_terminated :
    ∀ (outcomes : List Bool) (s : SupState), s ≠ SupState.terminated →
      List.foldl connectStep s outcomes ≠ SupState.terminated := by
  intro outcomes
  induction outcomes with
  | nil => intro s hs; simpa using hs
  | cons b bs ih =>
    intro s hs
    rw [List.foldl_cons]
    apply ih
    cases s <;> cases b <;> simp [connectStep] at hs ⊢

/-- C5: appending one plan via create-plan returns 201 with the full
updated list; the stored list grows by exactly one, prior entries keep
their order, and the last element is the posted plan. -/
theorem createPlan_appends :
    ∀ (db : DB) (u : User) (plan : StudyPlan),
      findById db u._id = some u →
      (createPlan db u plan).1.status = 201 ∧
      (createPlan db u plan).1.body = plansJson (u.studyPlans ++ [plan]) ∧
      findById (createPlan db u plan).2 u._id
        = some { u with studyPlans := u.studyPlans ++ [plan] } ∧
      (u.studyPlans ++ [plan]).length = u.studyPlans.length + 1 ∧
      (u.studyPlans ++ [plan]).take u.studyPlans.length = u.studyPlans ∧
      (u.studyPlans ++ [plan]).getLast? = some plan := by
  intro db u plan hfind
  exact ⟨rfl, rfl, findById_save db u _ hfind, by simp,
         List.take_left _ _, List.getLast?_concat _⟩

/-- C5 witness. -/
theorem createPlan_appends_witness :
    findById ⟨[⟨1, some "A", "a@x.com", "H", none, [], none⟩], 2⟩ 1
      = some ⟨1, some "A", "a@x.com", "H", none, [], none⟩ ∧
    (createPlan ⟨[⟨1, some "A", "a@x.com", "H", none, [], none⟩], 2⟩
        ⟨1, some "A", "a@x.com", "H", none, [], none⟩
        ⟨"Math", 2, "Ch1", false⟩).1.status = 201 :=
  ⟨by decide,
   (createPlan_appends ⟨[⟨1, some "A", "a@x.com", "H", none, [], none⟩], 2⟩
      ⟨1, some "A", "a@x.com", "H", none, [], none⟩
      ⟨"Math", 2, "Ch1", false⟩ (by decide)).1⟩

/-- C6: the replace-plans operation is idempotent — submitting the same
array twice leaves the store as after one submission, and each submission
returns 200 with the full stored list. -/
theorem replacePlans_idempotent :
    ∀ (db : DB) (u : User) (plans : List StudyPlan),
      findById db u._id = some u →
      (replacePlans db u plans).1.status = 200 ∧
      (replacePlans db u plans).1.body
        = Json.obj [("message", Json.str "Study plans updated successfully"),
                    ("plans", plansJson plans)] ∧
      findById (replacePlans db u plans).2 u._id
        = some { u with studyPlans := plans } ∧
      replacePlans (replacePlans db u plans).2 { u with studyPlans := plans } plans
        = ((replacePlans db u plans).1, (replacePlans db u plans).2) := by
  intro db u plans hfind
  refine ⟨rfl, rfl, findById_save db u _ hfind, ?_⟩
  unfold replacePlans
  simp only [Prod.mk.injEq, true_and, and_true, eq_self_iff_true]
  exact save_save db _

/-- C6 witness. -/
theorem replacePlans_idempotent_witness :
    findById ⟨[⟨1, some "A", "a@x.com", "H", none, [], none⟩], 2⟩ 1
      = some ⟨1, some "A", "a@x.com", "H", none, [], none⟩ ∧
    (replacePlans ⟨[⟨1, some "A", "a@x.com", "H", none, [], none⟩], 2⟩
        ⟨1, some "A", "a@x.com", "H", none, [], none⟩
        [⟨"Math", 2, "Ch1", false⟩]).1.status = 200 :=
  ⟨by decide,
   (replacePlans_idempotent ⟨[⟨1, some "A", "a@x.com", "H", none, [], none⟩], 2⟩
      ⟨1, some "A", "a@x.com", "H", none, [], none⟩
      [⟨"Math", 2, "Ch1", false⟩] (by decide)).1⟩

/-- C9: the Connection Supervisor retries indefinitely — from the initial
state no outcome sequence reaches the give-up state, a failed attempt
schedules exactly one retry with the fixed 5000 ms delay, and the fired
timer goes back to connecting. -/
theorem connection_supervisor_unbounded_retry :
    (∀ outcomes : List Bool,
        List.foldl connectStep SupState.connecting outcomes
          ≠ SupState.terminated) ∧
    connectStep SupState.connecting false = SupState.retryScheduled 5000 ∧
    (∀ b : Bool, connectStep (SupState.retryScheduled 5000) b
        = SupState.connecting) := by
  exact ⟨fun outcomes => foldl_connectStep_ne_terminated outcomes _ (by simp),
         rfl, fun b => rfl⟩

/-- C9 witness. -/
theorem connection_supervisor_unbounded_retry_witness :
    List.foldl connectStep SupState.connecting [false, false, true]
      ≠ SupState.terminated ∧
    connectStep SupState.connecting false = SupState.retryScheduled 5000 :=
  ⟨connection_supervisor_unbounded_retry.1 [false, false, true],
   connection_supervisor_unbounded_retry.2.1⟩

/-- C10: update-settings touches only the name and avatar of the
authenticated user, each only when a truthy value is supplied; email,
password, studyPlans and targetDate are untouched, the notification
inputs have no effect on the result, and the response is 200. -/
theorem updateSettings_frame :
    ∀ (db : DB) (u : User) (body : SettingsBody),
      (updateSettings db u body).2 = save db (settingsApply u body) ∧
      (settingsApply u body)._id = u._id ∧
      (settingsApply u body).email = u.email ∧
      (settingsApply u body).password = u.password ∧
      (settingsApply u body).studyPlans = u.studyPlans ∧
      (settingsApply u body).targetDate = u.targetDate ∧
      (truthy body.name = true → (settingsApply u body).name = body.name) ∧
      (truthy body.name = false → (settingsApply u body).name = u.name) ∧
      (truthy body.avatar = true → (settingsApply u body).avatar = body.avatar) ∧
      (truthy body.avatar = false → (settingsApply u body).avatar = u.avatar) ∧
      (∀ en mn, updateSettings db u
          { name := body.name, avatar := body.avatar,
            emailNotifications := en, mobileNotifications := mn }
        = updateSettings db u body) ∧
      (updateSettings db u body).1.status = 200 := by
  intro db u body
  refine ⟨rfl, rfl, rfl, rfl, rfl, rfl, ?_, ?_, ?_, ?_, fun en mn => rfl, rfl⟩
  · intro h; simp [settingsApply, applyIfTruthy, h]
  · intro h; simp [settingsApply, applyIfTruthy, h]
  · intro h; simp [settingsApply, applyIfTruthy, h]
  · intro h; simp [settingsApply, applyIfTruthy, h]

/-- C10 witness. -/
theorem updateSettings_frame_witness :
    truthy (some "B") = true ∧
    (settingsApply ⟨1, some "A", "a@x.com", "H", none, [], none⟩
        ⟨some "B", none, none, none⟩).name = some "B" :=
  ⟨by decide,
   (updateSettings_frame ⟨[], 0⟩ ⟨1, some "A", "a@x.com", "H", none, [], none⟩
      ⟨some "B", none, none, none⟩).2.2.2.2.2.2.1 (by decide)⟩

/-- C2: the Auth Gate's exact case analysis — no token yields the
access-denied rejection, a token that fails verification yields the
invalid-token rejection, a verified token whose subject is not in the
store yields the user-not-found rejection (the handler never runs), and
otherwise the resolved user is attached and the handler proceeds. -/
theorem authenticate_case_analysis :
    ∀ (db : DB) (header : Option String),
      (authTokenOf header = none →
        authenticate db header
          = .denied 401 (errBody "Access denied. No token provided.")) ∧
      (∀ t, authTokenOf header = some t → jwtVerify t = none →
        authenticate db header = .denied 401 (errBody "Invalid token")) ∧
      (∀ t uid, authTokenOf header = some t → jwtVerify t = some uid →
        findById db uid = none →
        authenticate db header = .denied 401 (errBody "User not found")) ∧
      (∀ t uid u, authTokenOf header = some t → jwtVerify t = some uid →
        findById db uid = some u →
        authenticate db header = .allowed u) := by
  intro db header
  cases header with
  | none =>
    refine ⟨fun _ => rfl, ?_, ?_, ?_⟩
    · intro t ht _; simp [authTokenOf] at ht
    · intro t uid ht _ _; simp [authTokenOf] at ht
    · intro t uid u ht _ _; simp [authTokenOf] at ht
  | some h =>
    by_cases hemp : replaceFirst "Bearer " h = ""
    · have hauth : authenticate db (some h)
          = .denied 401 (errBody "Access denied. No token provided.") := by
        simp [authenticate, hemp]
      refine ⟨fun _ => hauth, ?_, ?_, ?_⟩
      · intro t ht _; simp [authTokenOf, hemp] at ht
      · intro t uid ht _ _; simp [authTokenOf, hemp] at ht
      · intro t uid u ht _ _; simp [authTokenOf, hemp] at ht
    · have hsome : authTokenOf (some h) = some (replaceFirst "Bearer " h) := by
        simp [authTokenOf, hemp]
      refine ⟨?_, ?_, ?_, ?_⟩
      · intro hcontra; rw [hsome] at hcontra; exact absurd hcontra (by simp)
      · intro t ht hv
        rw [hsome] at ht
        injection ht with ht
        subst ht
        simp [authenticate, hemp, hv]
      · intro t uid ht hv hf
        rw [hsome] at ht
        injection ht with ht
        subst ht
        simp [authenticate, hemp, hv, hf]
      · intro t uid u ht hv hf
        rw [hsome] at ht
        injection ht with ht
        subst ht
        simp [authenticate, hemp, hv, hf]

/-- C2 witness: a verified token for an id absent from the store is
rejected with the user-not-found response. -/
theorem authenticate_case_analysis_witness :
    authenticate ⟨[], 0⟩ (some "Bearer jwt#####")
      = AuthResult.denied 401 (errBody "User not found") :=
  (authenticate_case_analysis ⟨[], 0⟩ (some "Bearer jwt#####")).2.2.1
    "jwt#####" 5 (by decide) (by decide) (by decide)

/-- C7: login returns 400 when email or password is missing or empty, and
both invalid-credential failure modes — unknown email and wrong
password — produce the identical 401 response. -/
theorem login_error_responses :
    ∀ (db : DB) (email password : Option String),
      ((email = none ∨ email = some "" ∨ password = none ∨ password = some "") →
        login db email password
          = ⟨400, errBody "Email and password are required"⟩) ∧
      (∀ e p, email = some e → password = some p → e ≠ "" → p ≠ "" →
        (findOneByEmail db e = none →
          login db email password = ⟨401, errBody "Invalid credentials"⟩) ∧
        (∀ u, findOneByEmail db e = some u →
          bcryptCompare p u.password = false →
          login db email password = ⟨401, errBody "Invalid credentials"⟩)) := by
  intro db email password
  constructor
  · intro h
    rcases h with h | h | h | h
    · subst h; cases password <;> rfl
    · subst h
      cases password with
      | none => rfl
      | some p => simp [login]
    · subst h
      cases email with
      | none => rfl
      | some e => rfl
    · subst h
      cases email with
      | none => rfl
      | some e => simp [login]
  · intro e p he hp hene hpne
    subst he
    subst hp
    have he' : (e == "") = false := beq_eq_false_iff_ne.mpr hene
    have hp' : (p == "") = false := beq_eq_false_iff_ne.mpr hpne
    constructor
    · intro hf; simp [login, he', hp', hf]
    · intro u hf hcmp; simp [login, he', hp', hf, hcmp]

/-- C7 witness: a wrong password against a stored user yields the 401
invalid-credentials response. -/
theorem login_error_responses_witness :
    login ⟨[⟨1, some "A", "a@x.com", bcryptHash "pw", none, [], none⟩], 2⟩
        (some "a@x.com") (some "bad")
      = ⟨401, errBody "Invalid credentials"⟩ :=
  ((login_error_responses
      ⟨[⟨1, some "A", "a@x.com", bcryptHash "pw", none, [], none⟩], 2⟩
      (some "a@x.com") (some "bad")).2 "a@x.com" "bad" rfl rfl
      (by decide) (by decide)).2
    ⟨1, some "A", "a@x.com", bcryptHash "pw", none, [], none⟩
    (by decide) (by decide)

/-- C1: a register request whose email already belongs to a stored user
always returns status 400 and leaves the store unchanged; with all fields
present the body is the distinct duplicate-email message; register
preserves email uniqueness, and so does every saving operation. -/
theorem register_duplicate_email_conflict :
    (∀ (db : DB) (name password : Option String) (e : String),
      (∃ u ∈ db.users, u.email = e) →
      (register db name (some e) password).1.status = 400 ∧
      (register db name (some e) password).2 = db) ∧
    (∀ (db : DB) (n e p : String),
      n ≠ "" → e ≠ "" → p ≠ "" → (∃ u ∈ db.users, u.email = e) →
      register db (some n) (some e) (some p)
        = (⟨400, errBody "Email already in use"⟩, db)) ∧
    (∀ (db : DB) (name email password : Option String),
      emailUnique db → emailUnique (register db name email password).2) ∧
    (∀ (db : DB) (u : User) (body : SettingsBody),
      idUnique db → findById db u._id = some u → emailUnique db →
      emailUnique (updateSettings db u body).2) ∧
    (∀ (db : DB) (u : User) (plan : StudyPlan),
      idUnique db → findById db u._id = some u → emailUnique db →
      emailUnique (createPlan db u plan).2) ∧
    (∀ (db : DB) (u : User) (plans : List StudyPlan),
      idUnique db → findById db u._id = some u → emailUnique db →
      emailUnique (replacePlans db u plans).2) ∧
    (∀ (db : DB) (u : User) (td : Option String),
      idUnique db → findById db u._id = some u → emailUnique db →
      emailUnique (updateTargetDate db u td).2) := by
  refine ⟨?_, ?_, ?_, ?_, ?_, ?_, ?_⟩
  · intro db nameo pwo e hex
    have hfind : findOneByEmail db e ≠ none := by
      intro hnone
      rw [findOneByEmail, List.find?_eq_none] at hnone
      rcases hex with ⟨u, hu, hue⟩
      exact hnone u hu (by simp [hue])
    cases nameo with
    | none => exact ⟨rfl, rfl⟩
    | some n =>
      cases pwo with
      | none => exact ⟨rfl, rfl⟩
      | some p =>
        by_cases hcond : (n == "" || e == "" || p == "") = true
        · constructor <;> simp [register, hcond]
        · have hcond' : (n == "" || e == "" || p == "") = false := by
            simpa using hcond
          cases hfound : findOneByEmail db e with
          | none => exact absurd hfound hfind
          | some w => constructor <;> simp [register, hcond', hfound]
  · intro db n e p hn he hp hex
    have hn' : (n == "") = false := beq_eq_false_iff_ne.mpr hn
    have he' : (e == "") = false := beq_eq_false_iff_ne.mpr he
    have hp' : (p == "") = false := beq_eq_false_iff_ne.mpr hp
    rcases hex with ⟨u, hu, hue⟩
    cases hfound : findOneByEmail db e with
    | none =>
      exfalso
      rw [findOneByEmail, List.find?_eq_none] at hfound
      exact hfound u hu (by simp [hue])
    | some w => simp [register, hn', he', hp', hfound]
  · intro db nameo emailo pwo hU
    cases nameo with
    | none => exact hU
    | some n =>
      cases emailo with
      | none => exact hU
      | some e =>
        cases pwo with
        | none => exact hU
        | some p =>
          by_cases hcond : (n == "" || e == "" || p == "") = true
          · simpa [register, hcond] using hU
          · have hcond' : (n == "" || e == "" || p == "") = false := by
              simpa using hcond
            cases hfound : findOneByEmail db e with
            | some w => simpa [register, hcond', hfound] using hU
            | none =>
              have hall : ∀ v ∈ db.users, v.email ≠ e := by
                rw [findOneByEmail, List.find?_eq_none] at hfound
                intro v hv hve
                exact hfound v hv (by simp [hve])
              have hreg : (register db (some n) (some e) (some p)).2
                  = ⟨db.users
                      ++ [⟨db.nextId, some n, e, bcryptHash p, none, [], none⟩],
                     db.nextId + 1⟩ := by
                simp [register, hcond', hfound]
              rw [hreg]
              unfold emailUnique at hU ⊢
              rw [List.pairwise_append]
              refine ⟨hU, List.pairwise_singleton _ _, ?_⟩
              intro a ha b hb
              simp only [List.mem_singleton] at hb
              subst hb
              exact hall a ha
  · intro db u body hidU hfind hU
    exact emailUnique_save db u _ hidU hfind rfl hU
  · intro db u plan hidU hfind hU
    exact emailUnique_save db u _ hidU hfind rfl hU
  · intro db u plans hidU hfind hU
    exact emailUnique_save db u _ hidU hfind rfl hU
  · intro db u td hidU hfind hU
    exact emailUnique_save db u _ hidU hfind rfl hU

/-- C1 witness: registering a second user with an already-stored email
yields the duplicate-email 400 response and an unchanged store. -/
theorem register_duplicate_email_conflict_witness :
    register ⟨[⟨1, some "A", "a@x.com", "H", none, [], none⟩], 2⟩
        (some "B") (some "a@x.com") (some "pw")
      = (⟨400, errBody "Email already in use"⟩,
         ⟨[⟨1, some "A", "a@x.com", "H", none, [], none⟩], 2⟩) :=
  register_duplicate_email_conflict.2.1
    ⟨[⟨1, some "A", "a@x.com", "H", none, [], none⟩], 2⟩ "B" "a@x.com" "pw"
    (by decide) (by decide) (by decide)
    ⟨⟨1, some "A", "a@x.com", "H", none, [], none⟩, by decide, rfl⟩

/-- C3: for valid credentials with a fresh email, register succeeds with
201, a subsequent login with the same credentials returns 200 with the
user summary and a token, and the Auth Gate accepts that token, resolving
it to the registered user. -/
theorem register_login_roundtrip :
    ∀ (db : DB) (n e p : String),
      n ≠ "" → e ≠ "" → p ≠ "" →
      findOneByEmail db e = none → idFresh db →
      (register db (some n) (some e) (some p)).1.status = 201 ∧
      login (register db (some n) (some e) (some p)).2 (some e) (some p)
        = ⟨200, Json.obj
            [("user", Json.obj [("_id", Json.num db.nextId),
                                ("name", Json.ostr (some n)),
                                ("email", Json.str e),
                                ("avatar", Json.ostr none)]),
             ("token", Json.str (jwtSign db.nextId))]⟩ ∧
      authenticate (register db (some n) (some e) (some p)).2
          (some ("Bearer " ++ jwtSign db.nextId))
        = .allowed ⟨db.nextId, some n, e, bcryptHash p, none, [], none⟩ := by
  intro db n e p hn he hp hfound hfresh
  have hn' : (n == "") = false := beq_eq_false_iff_ne.mpr hn
  have he' : (e == "") = false := beq_eq_false_iff_ne.mpr he
  have hp' : (p == "") = false := beq_eq_false_iff_ne.mpr hp
  have hreg2 : (register db (some n) (some e) (some p)).2
      = ⟨db.users ++ [⟨db.nextId, some n, e, bcryptHash p, none, [], none⟩],
         db.nextId + 1⟩ := by
    simp [register, hn', he', hp', hfound]
  have hstatus : (register db (some n) (some e) (some p)).1.status = 201 := by
    simp [register, hn', he', hp', hfound]
  refine ⟨hstatus, ?_, ?_⟩
  · rw [hreg2]
    have hfind2 : findOneByEmail
        ⟨db.users ++ [⟨db.nextId, some n, e, bcryptHash p, none, [], none⟩],
         db.nextId + 1⟩ e
        = some ⟨db.nextId, some n, e, bcryptHash p, none, [], none⟩ := by
      unfold findOneByEmail at hfound ⊢
      rw [List.find?_append, hfound]
      simp
    simp [login, he', hp', hfind2, bcryptCompare_hash]
  · rw [hreg2]
    have hfindid : findById
        ⟨db.users ++ [⟨db.nextId, some n, e, bcryptHash p, none, [], none⟩],
         db.nextId + 1⟩ db.nextId
        = some ⟨db.nextId, some n, e, bcryptHash p, none, [], none⟩ := by
      unfold findById
      rw [List.find?_append]
      have h1 : db.users.find? (fun u => u._id == db.nextId) = none := by
        rw [List.find?_eq_none]
        intro x hx
        have hlt := hfresh x hx
        simp only [beq_iff_eq]
        omega
      rw [h1]
      simp
    simp [authenticate, replaceFirst_bearer, jwtSign_ne_empty,
          jwtVerify_jwtSign, hfindid]

/-- C3 witness. -/
theorem register_login_roundtrip_witness :
    (register ⟨[], 0⟩ (some "A") (some "a@x.com") (some "pw123456")).1.status
      = 201 ∧
    authenticate (register ⟨[], 0⟩ (some "A") (some "a@x.com")
          (some "pw123456")).2 (some ("Bearer " ++ jwtSign 0))
      = .allowed ⟨0, some "A", "a@x.com", bcryptHash "pw123456",
                  none, [], none⟩ :=
  ⟨(register_login_roundtrip ⟨[], 0⟩ "A" "a@x.com" "pw123456"
      (by decide) (by decide) (by decide) (by decide)
      (by intro u hu; simp at hu)).1,
   (register_login_roundtrip ⟨[], 0⟩ "A" "a@x.com" "pw123456"
      (by decide) (by decide) (by decide) (by decide)
      (by intro u hu; simp at hu)).2.2⟩

/-- C8 counterexample: the header "xBearer tok" does not start with
"Bearer ", yet the Auth Gate's extraction does not use it unchanged — the
first occurrence of "Bearer " is removed from the middle, yielding
"xtok". -/
theorem replaceFirst_not_prefix_only :
    replaceFirst "Bearer " "xBearer tok" = "xtok" ∧
    "Bearer ".data.isPrefixOf "xBearer tok".data = false ∧
    replaceFirst "Bearer " "xBearer tok" ≠ "xBearer tok" ∧
    authTokenOf (some "xBearer tok") = some "xtok" :=
  ⟨by decide, by decide, by decide, by decide⟩

/-- C8 amended: the extraction removes the first occurrence of the
substring "Bearer " anywhere in the header — a header of the form
"Bearer " ++ t yields t, and a header that contains no occurrence of
"Bearer " at all is used unchanged. -/
theorem bearer_extraction_amended :
    (∀ t : String, replaceFirst "Bearer " ("Bearer " ++ t) = t) ∧
    (∀ h : String, hasSubstr "Bearer ".data h.data = false →
      replaceFirst "Bearer " h = h) := by
  constructor
  · exact replaceFirst_bearer
  · intro h hno
    unfold replaceFirst
    rw [replaceFirstList_of_no_occurrence _ _ hno]

/-- C8 witness. -/
theorem bearer_extraction_amended_witness :
    replaceFirst "Bearer " ("Bearer " ++ "tok") = "tok" ∧
    hasSubstr "Bearer ".data "abc".data = false ∧
    replaceFirst "Bearer " "abc" = "abc" :=
  ⟨bearer_extraction_amended.1 "tok", by decide,
   bearer_extraction_amended.2 "abc" (by decide)⟩

/-- C4 counterexample: get-user-by-id responds with the raw user document,
whose body contains the stored password hash under the "password" key. -/
theorem getUserById_leaks_password_hash :
    (getUserById ⟨[⟨1, some "A", "a@x.com", "hash123", none, [], none⟩], 2⟩
        1).body
      = userFullJson ⟨1, some "A", "a@x.com", "hash123", none, [], none⟩ ∧
    Json.hasKey "password"
      (getUserById ⟨[⟨1, some "A", "a@x.com", "hash123", none, [], none⟩], 2⟩
          1).body
      = true :=
  ⟨rfl, rfl⟩

/-- C4 amended: every endpoint except get-user-by-id excludes the stored
password hash from its response body (no "password" key anywhere in it);
get-user-by-id alone returns the raw user document, which does contain
the password hash under the "password" key. -/
theorem password_exclusion_amended :
    (∀ (db : DB) (name email password : Option String),
      Json.hasKey "password" (register db name email password).1.body
        = false) ∧
    (∀ (db : DB) (email password : Option String),
      Json.hasKey "password" (login db email password).body = false) ∧
    (∀ u : User, Json.hasKey "password" (getUser u).body = false) ∧
    (∀ (db : DB) (u : User) (body : SettingsBody),
      Json.hasKey "password" (updateSettings db u body).1.body = false) ∧
    (∀ (db : DB) (u : User) (plan : StudyPlan),
      Json.hasKey "password" (createPlan db u plan).1.body = false) ∧
    (∀ (db : DB) (u : User) (plans : List StudyPlan),
      Json.hasKey "password" (replacePlans db u plans).1.body = false) ∧
    (∀ (db : DB) (u : User) (td : Option String),
      Json.hasKey "password" (updateTargetDate db u td).1.body = false) ∧
    (∀ (s : Nat) (ts env : String),
      Json.hasKey "password" (health s ts env).body = false) ∧
    (∀ (db : DB) (uid : Nat) (u : User), findById db uid = some u →
      (getUserById db uid).body = userFullJson u ∧
      Json.hasKey "password" (userFullJson u) = true) := by
  refine ⟨?_, ?_, ?_, ?_, ?_, ?_, ?_, ?_, ?_⟩
  · intro db nameo emailo pwo
    cases nameo with
    | none => rfl
    | some n =>
      cases emailo with
      | none => rfl
      | some e =>
        cases pwo with
        | none => rfl
        | some p =>
          by_cases hcond : (n == "" || e == "" || p == "") = true
          · simp [register, hcond, hasKey_password_errBody]
          · have hcond' : (n == "" || e == "" || p == "") = false := by
              simpa using hcond
            cases hfound : findOneByEmail db e with
            | some w => simp [register, hcond', hfound, hasKey_password_errBody]
            | none =>
              simp [register, hcond', hfound, Json.hasKey, Json.hasKeyFields]
  · intro db emailo pwo
    cases emailo with
    | none => rfl
    | some e =>
      cases pwo with
      | none => rfl
      | some p =>
        by_cases hcond : (e == "" || p == "") = true
        · simp [login, hcond, hasKey_password_errBody]
        · have hcond' : (e == "" || p == "") = false := by simpa using hcond
          cases hfound : findOneByEmail db e with
          | none => simp [login, hcond', hfound, hasKey_password_errBody]
          | some w =>
            by_cases hcmp : bcryptCompare p w.password = true
            · simp [login, hcond', hfound, hcmp, Json.hasKey,
                    Json.hasKeyFields, hasKey_ostr]
            · have hcmp' : bcryptCompare p w.password = false := by
                simpa using hcmp
              simp [login, hcond', hfound, hcmp', hasKey_password_errBody]
  · intro u
    simp [getUser, Json.hasKey, Json.hasKeyFields, hasKey_ostr, plansJson,
          hasKeyArr_password_plans]
  · intro db u body
    simp [updateSettings, Json.hasKey, Json.hasKeyFields, hasKey_ostr]
  · intro db u plan
    exact hasKey_password_plansJson _
  · intro db u plans
    simp [replacePlans, Json.hasKey, Json.hasKeyFields, plansJson,
          hasKeyArr_password_plans]
  · intro db u td
    simp [updateTargetDate, Json.hasKey, Json.hasKeyFields, hasKey_ostr]
  · intro s ts env
    rfl
  · intro db uid u hf
    refine ⟨by simp [getUserById, hf], ?_⟩
    simp [userFullJson, Json.hasKey, Json.hasKeyFields, hasKey_ostr]

/-- C4 witness for the amended claim's conditional part. -/
theorem password_exclusion_amended_witness :
    findById ⟨[⟨1, some "A", "a@x.com", "H", none, [], none⟩], 2⟩ 1
      = some ⟨1, some "A", "a@x.com", "H", none, [], none⟩ ∧
    Json.hasKey "password"
        (userFullJson ⟨1, some "A", "a@x.com", "H", none, [], none⟩)
      = true :=
  ⟨by decide,
   (password_exclusion_amended.2.2.2.2.2.2.2.2
      ⟨[⟨1, some "A", "a@x.com", "H", none, [], none⟩], 2⟩ 1
      ⟨1, some "A", "a@x.com", "H", none, [], none⟩ (by decide)).2⟩
